import Mathlib

/-!
Verification of the DRIFTsync C client (client/c/driftsync.c) against its
natural-language specification.

Modelling conventions (LP64 platform, as the code targets Linux):
* `int64_t` values are modelled as `Int`; overflow of 64-bit additions and
  subtractions of timestamps is out of scope (the spec itself declares it a
  non-issue), but every place where the C code performs a conversion whose
  result differs from exact integer arithmetic is modelled explicitly:
  - `size_t` index arithmetic in `ring_buffer_get` wraps modulo 2^64;
  - the `int` return of `compare_int64_t` truncates the 64-bit difference
    to 32 bits;
  - `total / count` in the ingest loop converts the signed total to
    `uint64_t` before an unsigned division and converts the quotient back;
  - C integer division truncates toward zero, hence `Int.tdiv` / `Int.tmod`.
* `double` values (`clockRate`, `scale`, the playback-rate computation) are
  modelled as exact rationals `ℚ`; a cast `(int64_t)x` of a double is
  truncation toward zero.
* Calls to the monotonic clock `localTime()` are modelled by an explicit
  `now` parameter, and the body of each infinite loop is modelled as a step
  function on the client state.
* `qsort` is modelled as an insertion sort over the ordering induced by the
  supplied comparator; on all inputs considered in the theorems below the
  comparator is a total order with distinct keys, for which every sorting
  routine produces the same list.
* The field `local` of `struct sample` is called `localT` because `local`
  is a Lean keyword.
-/

/-- Two to the 64: the modulus of `size_t` arithmetic on LP64 platforms. -/
def U64 : Nat := 18446744073709551616

/-- Reinterpret a nonnegative 64-bit value (a `Nat` below `2^64`) as the
`int64_t` with the same bit pattern, i.e. two-complement form. -/
def int64OfUInt64 (n : Nat) : Int :=
  if n < 2 ^ 63 then (n : Int) else (n : Int) - (U64 : Int)

/-- Convert an `int64_t` value to the `uint64_t` it converts to in C:
reduction modulo `2^64` (the result is nonnegative). -/
def uint64OfInt64 (n : Int) : Nat := (n % (U64 : Int)).toNat

/-- Truncation of a 64-bit value to `int` (32 bits, two-complement form), as
performed by the `return` of `compare_int64_t` in the C source. -/
def int32OfInt64 (n : Int) : Int := (n + 2 ^ 31) % 2 ^ 32 - 2 ^ 31

/-- The cast `(int64_t)` of a `double`, truncation toward zero, applied to
the exact rational modelling the double. -/
def truncRat (q : ℚ) : Int := Int.tdiv q.num (q.den : Int)

/-- struct sample (driftsync.c lines 23-26).  `localT` models the C field
`local` (a Lean keyword). -/
structure Sample where
  localT : Int
  remote : Int
deriving DecidableEq, Repr

instance : Inhabited Sample := ⟨⟨0, 0⟩⟩

/-- struct ring_buffer (driftsync.c lines 43-49).  The raw storage is the
list `buffer` of the `size` physical slots; `elementSize` and the untyped
`void *` storage are memory-layout details that the embedding replaces by
typed slots. -/
structure RingBuffer (α : Type) where
  buffer : List α
  size : Nat
  count : Nat
  position : Nat
deriving DecidableEq, Repr

/-- ring_buffer_init (lines 52-60): calloc zeroes the storage, hence every
slot holds the default (zero) element; `count = 0`, `position = size - 1`. -/
def ring_buffer_init (α : Type) [Inhabited α] (size : Nat) : RingBuffer α :=
  { buffer := List.replicate size default
    size := size
    count := 0
    position := size - 1 }

/-- ring_buffer_push (lines 70-79): advance `position` cyclically, saturate
`count` at `size`, store the element at the new `position`. -/
def ring_buffer_push (b : RingBuffer α) (x : α) : RingBuffer α :=
  { buffer := b.buffer.set ((b.position + 1) % b.size) x
    size := b.size
    count := if b.count < b.size then b.count + 1 else b.count
    position := (b.position + 1) % b.size }

/-- The physical slot read by ring_buffer_get (lines 82-88).  The C code
computes `position + buffer->position - buffer->count + 1` in `size_t`
arithmetic — wrapping modulo `2^64` — and only then reduces modulo `size`.
`i + b.position + 1 + (U64 - b.count)` equals the C value of the unsigned
sum for every state with `count ≤ 2^64`. -/
def ring_index (b : RingBuffer α) (i : Nat) : Nat :=
  ((i + b.position + 1 + (U64 - b.count)) % U64) % b.size

/-- ring_buffer_get (lines 82-88), dereferenced at the element type. -/
def ring_buffer_get [Inhabited α] (b : RingBuffer α) (i : Nat) : α :=
  b.buffer.getD (ring_index b i) default

/-- ring_buffer_copy (lines 91-100): `memcpy` of the whole storage plus the
`count` and `position` fields; the destination keeps its own (asserted
equal) `size`. -/
def ring_buffer_copy (src dst : RingBuffer α) : RingBuffer α :=
  { buffer := src.buffer
    size := dst.size
    count := src.count
    position := src.position }

/-- ring_buffer_clear (lines 103-109). -/
def ring_buffer_clear [Inhabited α] (b : RingBuffer α) : RingBuffer α :=
  { buffer := List.replicate b.size default
    size := b.size
    count := 0
    position := b.size - 1 }

/-- The sequence of elements visited by ring_buffer_apply (lines 112-118):
`ring_buffer_get` at the logical indices `0, 1, ..., count-1`. -/
def ring_buffer_applied [Inhabited α] (b : RingBuffer α) : List α :=
  (List.range b.count).map (fun i => ring_buffer_get b i)

/-- ring_buffer_apply specialised to the one fold the client performs:
summing an `int64_t` ring with sum_int64_t (lines 235-239, 314-315). -/
def ring_buffer_sum (b : RingBuffer Int) : Int :=
  (ring_buffer_applied b).foldl (fun acc x => acc + x) 0

/-- compare_int64_t (lines 178-182): the 64-bit difference is returned
through the 32-bit `int` return type, so it is truncated. -/
def compare_int64_t (one two : Int) : Int := int32OfInt64 (one - two)

/-- The ordering induced by passing `compare_int64_t` to qsort. -/
def rttLE (one two : Int) : Prop := compare_int64_t one two ≤ 0

instance : DecidableRel rttLE := fun a b =>
  inferInstanceAs (Decidable (compare_int64_t a b ≤ 0))

/-- The effect of `qsort(buffer, count, elementSize, compar)` on the raw
storage: the first `count` physical slots are reordered into comparator
order, the remaining slots are untouched. -/
def qsortBuffer (b : RingBuffer Int) : RingBuffer Int :=
  { b with buffer :=
      List.insertionSort rttLE (b.buffer.take b.count) ++ b.buffer.drop b.count }

/-- ring_buffer_median (lines 121-127): sort the first `count` physical
slots in place, then read logical index `count / 2` through
ring_buffer_get.  Returns the sorted ring (the scratch ring is mutated in
place) together with the value read. -/
def ring_buffer_median (b : RingBuffer Int) : RingBuffer Int × Int :=
  let sorted := qsortBuffer b
  (sorted, ring_buffer_get sorted (sorted.count / 2))

/-- struct DRIFTsync (lines 130-147).  The mutex, condition variable,
socket and server address are concurrency / I-O resources outside the
state the claims quantify over; `maxSamples` is the constant 10 set by
DRIFTsync_create.  `struct statistics` (lines 29-33) is inlined as the
three counter fields. -/
structure DRIFTsync where
  roundTripTimes : RingBuffer Int
  sortedRoundTripTimes : RingBuffer Int
  samples : RingBuffer Sample
  clockRate : ℚ
  offsets : RingBuffer Int
  averageOffset : Int
  accuracySamples : RingBuffer Int
  sentRequests : Int
  receivedSamples : Int
  rejectedSamples : Int
  interval : Int
  scale : ℚ
  measureAccuracy : Bool
deriving DecidableEq

/-- The state part of DRIFTsync_create (lines 388-405): `maxSamples = 10`,
`clockRate = 1.0`, `averageOffset = 0`, zeroed statistics, five freshly
calloc-ed rings of capacity 10. -/
def DRIFTsync_create (scale : ℚ) (interval : Int) (measureAccuracy : Bool) :
    DRIFTsync :=
  { roundTripTimes := ring_buffer_init Int 10
    sortedRoundTripTimes := ring_buffer_init Int 10
    samples := ring_buffer_init Sample 10
    clockRate := 1
    offsets := ring_buffer_init Int 10
    averageOffset := 0
    accuracySamples := ring_buffer_init Int 10
    sentRequests := 0
    receivedSamples := 0
    rejectedSamples := 0
    interval := interval
    scale := scale
    measureAccuracy := measureAccuracy }

/-- globalTime (lines 160-175).  The call to `localTime()` is the explicit
parameter `now`; the double multiplication `(now - reference) * clockRate`
and its cast back to `int64_t` are exact-rational product and truncation. -/
def globalTime (sync : DRIFTsync) (now : Int) : Int :=
  if sync.samples.count > 0 then
    let reference :=
      (ring_buffer_get sync.samples (sync.samples.count - 1)).localT
    reference + sync.averageOffset +
      truncRat (((now - reference : Int) : ℚ) * sync.clockRate)
  else 0

/-- medianRoundTripTime (lines 185-199): copy the live RTT ring into the
scratch ring, sort the scratch, read its middle.  Returns the updated
state (the scratch ring is overwritten) and the `int64_t` result. -/
def medianRoundTripTime (sync : DRIFTsync) : DRIFTsync × Int :=
  let copied := ring_buffer_copy sync.roundTripTimes sync.sortedRoundTripTimes
  let m := ring_buffer_median copied
  ({ sync with sortedRoundTripTimes := m.1 }, m.2)

/-- The clock-rate computation of the ingest loop (lines 301-309):
`(double)(last->remote - first->remote) / (last->local - first->local)`
with `first = ring_buffer_get(samples, 0)` and
`last = ring_buffer_get(samples, count - 1)`. -/
def sampleClockRate (samples : RingBuffer Sample) : ℚ :=
  let first := ring_buffer_get samples 0
  let last := ring_buffer_get samples (samples.count - 1)
  ((last.remote - first.remote : Int) : ℚ) /
    ((last.localT - first.localT : Int) : ℚ)

/-- The average-offset computation of the ingest loop (line 317):
`sync->averageOffset = total / sync->offsets.count`.  `total` is
`int64_t` and `count` is `size_t`, so the usual arithmetic conversions
turn this into an unsigned 64-bit division whose quotient is converted
back to `int64_t`. -/
def averageOfTotal (total : Int) (count : Nat) : Int :=
  int64OfUInt64 (uint64OfInt64 total / count)

/-- The locked ingest section of receive_loop (lines 283-318) for a valid
reply packet with fields `pLocal` (`packet.local`), `pRemote`
(`packet.remote`), received at monotonic time `now`.  The unlocked
accuracy-probe section (lines 320-333) touches only `accuracySamples` and
the condition variable and is not needed by any claim below. -/
def receive_step (sync : DRIFTsync) (pLocal pRemote now : Int) : DRIFTsync :=
  let s1 : DRIFTsync := { sync with receivedSamples := sync.receivedSamples + 1 }
  let roundTripTime : Int := now - pLocal
  let s2 : DRIFTsync :=
    { s1 with roundTripTimes := ring_buffer_push s1.roundTripTimes roundTripTime }
  let m := medianRoundTripTime s2
  let difference : Int := roundTripTime - m.2
  if (if difference < 0 then -difference else difference) > 10000 then
    { m.1 with rejectedSamples := m.1.rejectedSamples + 1 }
  else
    let s4 : DRIFTsync := { m.1 with
      samples := ring_buffer_push m.1.samples { localT := pLocal, remote := pRemote } }
    let s5 : DRIFTsync :=
      if s4.samples.count ≥ 2 then
        { s4 with clockRate := sampleClockRate s4.samples }
      else s4
    let s6 : DRIFTsync :=
      { s5 with offsets := ring_buffer_push s5.offsets (pRemote - pLocal) }
    { s6 with
      averageOffset := averageOfTotal (ring_buffer_sum s6.offsets) s6.offsets.count }

/-- DRIFTsync_suggestPlaybackRate (lines 443-454) over exact rationals.
`globalTime sync now` stands for the internal `globalTime(sync)` call. -/
def DRIFTsync_suggestPlaybackRate (sync : DRIFTsync) (now : Int)
    (globalStartTime playbackPosition : ℚ) : ℚ :=
  let globalPosition : ℚ :=
    ((globalTime sync now : Int) : ℚ) - globalStartTime / sync.scale
  let difference := globalPosition - playbackPosition / sync.scale
  if (if difference < 0 then -difference else difference) < 5000 then 1
  else
    let rate := 1 + difference / 1000 / 1000
    if rate > 2 then 2 else if rate < 0.5 then 0.5 else rate

/-- DRIFTsync_medianRoundTripTime (lines 457-461): the internal median
scaled at the boundary. -/
def DRIFTsync_medianRoundTripTime (sync : DRIFTsync) : ℚ :=
  (((medianRoundTripTime sync).2 : Int) : ℚ) * sync.scale

/-- The deadline armed by DRIFTsync_accuracy for `wait = true, timeout > 0`
(lines 502-513): the current `CLOCK_REALTIME` value `(tvSec, tvNsec)` plus
`timeout / 1000 / 1000` seconds and `(timeout % 1000 / 1000) * 1000`
nanoseconds, in C `int` (truncating) arithmetic. -/
def accuracyDeadline (tvSec tvNsec timeout : Int) : Int × Int :=
  (tvSec + Int.tdiv (Int.tdiv timeout 1000) 1000,
    tvNsec + Int.tdiv (Int.tmod timeout 1000) 1000 * 1000)

/-- One iteration of request_loop (lines 211-229) given the return value
of `sendto`: the statistics counter is incremented unconditionally, and
the second component of the pair records whether this iteration reaches the
`usleep(sync->interval)` at the bottom of the loop — a negative result and
a short write both `continue` past the sleep.  `sizeof(struct
driftsync_packet)` is 32. -/
def request_iteration (sentRequests : Int) (sendResult : Int) : Int × Bool :=
  (sentRequests + 1,
    if sendResult < 0 then false
    else if sendResult ≠ 32 then false
    else true)

/-- Pushing a whole list of elements in order; used to describe reachable
ring states (every ring state of the running client is the fold of its
push history over the freshly initialised ring). -/
def pushList (b : RingBuffer α) (xs : List α) : RingBuffer α :=
  xs.foldl ring_buffer_push b

/-- A capacity-10 int64 ring holding the given push history; every RTT or
offset ring state of the running client has this shape. -/
def intRingAfter (xs : List Int) : RingBuffer Int :=
  pushList (ring_buffer_init Int 10) xs

/-- A capacity-10 sample ring holding the given push history; every samples
ring state of the running client has this shape. -/
def samplesRingAfter (xs : List Sample) : RingBuffer Sample :=
  pushList (ring_buffer_init Sample 10) xs

/-- The median value the rejection filter of receive_loop compares against:
the median of the RTT ring after the candidate RTT has been pushed
(lines 287-288). -/
def candidateMedian (sync : DRIFTsync) (rtt : Int) : Int :=
  (medianRoundTripTime
    { sync with roundTripTimes := ring_buffer_push sync.roundTripTimes rtt }).2

/-- A client state with exactly one accepted sample: the fresh client after
ingesting one valid reply with `packet.local = 0`, `packet.remote = 10^6`,
received at monotonic time 0. -/
def stateOneSample : DRIFTsync :=
  receive_step (DRIFTsync_create 1 5000000 true) 0 1000000 0

/-- A client state whose RTT ring has wrapped: eleven round-trip samples
1, 2, ..., 11 have been pushed into the capacity-10 RTT ring. -/
def stateWrappedRtt : DRIFTsync :=
  { DRIFTsync_create 1 5000000 true with
    roundTripTimes := intRingAfter [1, 2, 3, 4, 5, 6, 7, 8, 9, 10, 11] }

/-- A client state with three equal round-trip times on record; a fourth
reply with a round trip of 20000 microseconds is then 20000 above the
median and must be rejected. -/
def stateThreeRtts : DRIFTsync :=
  { DRIFTsync_create 1 5000000 true with
    roundTripTimes := intRingAfter [0, 0, 0] }

/-- The fresh client after ingesting two valid replies whose offsets
`remote - local` are both -10: packets `(local 0, remote -10)` received at
time 0 and `(local 100, remote 90)` received at time 100 (both round trips
are 0, so both samples pass the median filter). -/
def stateNegativeOffsets : DRIFTsync :=
  receive_step (receive_step (DRIFTsync_create 1 5000000 true) 0 (-10) 0) 100 90 100

/-- Claim C1 (counterexample): a state with exactly one accepted sample —
fewer than 2 — on which globalTime returns 1000000, not 0.  The code only
short-circuits to 0 when `samples.count == 0` (line 166). -/
theorem claim_C1_counterexample :
    stateOneSample.samples.count < 2 ∧ globalTime stateOneSample 0 ≠ 0 := by
  have hcount : stateOneSample.samples.count = 1 := by decide
  have href :
      (ring_buffer_get stateOneSample.samples (stateOneSample.samples.count - 1)).localT
        = 0 := by decide
  have havg : stateOneSample.averageOffset = 1000000 := by decide
  refine ⟨by omega, ?_⟩
  rw [globalTime, if_pos (by omega)]
  rw [href, havg]
  norm_num [truncRat]

/-- Claim C1 (amended): for every client state in which no sample has been
accepted (`samples.count = 0`), `globalTime` returns 0, whatever the
current monotonic time. -/
theorem claim_C1_amended (sync : DRIFTsync) (now : Int)
    (h : sync.samples.count = 0) : globalTime sync now = 0 := by
  simp [globalTime, h]

/-- Witness for claim C1 (amended) at the freshly created client. -/
theorem claim_C1_amended_witness :
    (DRIFTsync_create 1 5000000 true).samples.count = 0 ∧
    globalTime (DRIFTsync_create 1 5000000 true) 0 = 0 :=
  ⟨rfl, claim_C1_amended (DRIFTsync_create 1 5000000 true) 0 rfl⟩

/-- Claim C2 (code bug): on a wrapped RTT ring (eleven pushes, capacity 10)
the scratch-sort median routine returns 4, but index `count / 2 = 5` of
the sorted copy of the current ring contents holds 7.  The `size_t`
subtraction in ring_buffer_get underflows modulo `2^64` and, because
`2^64 % 10 = 6`, lands on physical slot 2 of the qsorted scratch buffer
instead of slot 5.  The live ring is unchanged (that part of the claim
holds). -/
theorem claim_C2_code_bug :
    (medianRoundTripTime stateWrappedRtt).2 = 4 ∧
    (List.insertionSort (fun a b : Int => a ≤ b)
        (stateWrappedRtt.roundTripTimes.buffer.take
          stateWrappedRtt.roundTripTimes.count)).getD
      (stateWrappedRtt.roundTripTimes.count / 2) 0 = 7 ∧
    (medianRoundTripTime stateWrappedRtt).1.roundTripTimes =
      stateWrappedRtt.roundTripTimes := by
  decide

/-- Claim C5 (code bug): after two accepted samples with offset -10 each,
the offsets ring holds [-10, -10] (count 2), whose mean under truncating
integer division is -10; the code stores 9223372036854775798 in
`averageOffset`, because `total / count` converts the negative `int64_t`
total to `uint64_t` (`size_t` operand) before dividing. -/
theorem claim_C5_code_bug :
    stateNegativeOffsets.offsets.count = 2 ∧
    (stateNegativeOffsets.offsets.buffer.take
        stateNegativeOffsets.offsets.count).foldl (fun acc x => acc + x) 0 = -20 ∧
    stateNegativeOffsets.averageOffset = 9223372036854775798 ∧
    stateNegativeOffsets.averageOffset ≠ Int.tdiv (-20) 2 := by
  decide

/-- Claim C7 (code bug): for `timeout = 500000` microseconds and realtime
clock at `(0 sec, 0 nsec)`, the code arms the deadline `(0, 0)` — now,
zero microseconds ahead — while the claim requires `now + timeout`, i.e.
500000000 nanoseconds ahead: `timeout % 1000 / 1000` is identically zero,
so every sub-second part of the timeout is dropped. -/
theorem claim_C7_code_bug :
    (accuracyDeadline 0 0 500000).1 * 1000000000 + (accuracyDeadline 0 0 500000).2 = 0 ∧
    (0 : Int) * 1000000000 + 0 + 500000 * 1000 = 500000000 ∧
    (0 : Int) ≠ 500000000 := by
  decide

/-- Claim C8 (code bug): pushing 11 onto the full ring holding 1..10 keeps
`count` at capacity and makes the new element readable at index
`count - 1` (those parts of the claim hold), but the previously held
elements are not preserved at their insertion-order index shifted down by
one: index 0 of the new ring reads 8 (physical slot 7, after the mod-2^64
underflow in ring_buffer_get) where the old index 1 held 2. -/
theorem claim_C8_code_bug :
    (ring_buffer_push (intRingAfter [1,2,3,4,5,6,7,8,9,10]) 11).count = 10 ∧
    ring_buffer_get (ring_buffer_push (intRingAfter [1,2,3,4,5,6,7,8,9,10]) 11)
      ((ring_buffer_push (intRingAfter [1,2,3,4,5,6,7,8,9,10]) 11).count - 1) = 11 ∧
    ring_buffer_get (intRingAfter [1,2,3,4,5,6,7,8,9,10]) 1 = 2 ∧
    ring_buffer_get (ring_buffer_push (intRingAfter [1,2,3,4,5,6,7,8,9,10]) 11) 0 = 8 := by
  decide

/-- Claim C9 (counterexample): an iteration of request_loop whose `sendto`
fails (result -1), and one that writes short (result 31), both skip the
interval sleep — the `continue` statements jump past `usleep` — so a send
attempt is not always followed by the interval sleep. -/
theorem claim_C9_counterexample :
    (request_iteration 0 (-1)).2 = false ∧ (request_iteration 0 31).2 = false := by
  decide

/-- Claim C9 (amended): an iteration of the probe emitter reaches the
interval sleep exactly when `sendto` returned the full 32-byte packet
size; a failed or short send skips the sleep and the loop immediately
starts the next send attempt.  The sent counter is incremented on every
iteration. -/
theorem claim_C9_amended (sentRequests sendResult : Int) :
    ((request_iteration sentRequests sendResult).2 = true ↔ sendResult = 32) ∧
    (request_iteration sentRequests sendResult).1 = sentRequests + 1 := by
  refine ⟨?_, rfl⟩
  unfold request_iteration
  split_ifs with h1 h2
  · simp only [Bool.false_eq_true, false_iff]
    omega
  · simp only [Bool.false_eq_true, false_iff]
    exact h2
  · simp only [true_iff]
    omega

/-- Helper: the C idiom `x < 0 ? -x : x` computes the absolute value of an
`int64_t`. -/
theorem int_branch_abs (d : Int) : (if d < 0 then -d else d) = |d| := by
  split_ifs with h
  · exact (abs_of_neg h).symm
  · exact (abs_of_nonneg (not_lt.mp h)).symm

/-- Claim C3: for every state and valid reply, the sample is rejected —
`statistics.rejected` is incremented — iff the round trip deviates from the
median (computed with the candidate already pushed) by strictly more than
10000 microseconds, and on rejection the samples ring, the offsets ring,
`average_offset` and `clock_rate` are unchanged while the rejected RTT
remains in the RTT ring and `statistics.received` was still incremented. -/
theorem claim_C3 (sync : DRIFTsync) (pLocal pRemote now : Int) :
    ((receive_step sync pLocal pRemote now).rejectedSamples = sync.rejectedSamples + 1 ↔
      10000 < |now - pLocal - candidateMedian sync (now - pLocal)|) ∧
    (10000 < |now - pLocal - candidateMedian sync (now - pLocal)| →
      (receive_step sync pLocal pRemote now).samples = sync.samples ∧
      (receive_step sync pLocal pRemote now).offsets = sync.offsets ∧
      (receive_step sync pLocal pRemote now).averageOffset = sync.averageOffset ∧
      (receive_step sync pLocal pRemote now).clockRate = sync.clockRate ∧
      (receive_step sync pLocal pRemote now).roundTripTimes =
        ring_buffer_push sync.roundTripTimes (now - pLocal) ∧
      (receive_step sync pLocal pRemote now).receivedSamples =
        sync.receivedSamples + 1) := by
  have hm : (medianRoundTripTime
      { sync with
        receivedSamples := sync.receivedSamples + 1
        roundTripTimes := ring_buffer_push sync.roundTripTimes (now - pLocal) }).2 =
      candidateMedian sync (now - pLocal) := rfl
  unfold receive_step
  simp only [int_branch_abs]
  rw [hm]
  split_ifs with h hc
  · constructor
    · simp [medianRoundTripTime, h]
    · intro _
      simp [medianRoundTripTime]
  · constructor
    · simp only [medianRoundTripTime]
      simp [h]
    · intro hx
      exact absurd hx h
  · constructor
    · simp only [medianRoundTripTime]
      simp [h]
    · intro hx
      exact absurd hx h

/-- Witness for claim C3: from a state with round trips [0, 0, 0] on
record, a reply with round trip 20000 deviates by 20000 from the
median 0 and is rejected, leaving samples, offsets, average offset and
clock rate unchanged. -/
theorem claim_C3_witness :
    10000 < |(20000 : Int) - 0 - candidateMedian stateThreeRtts (20000 - 0)| ∧
    ((receive_step stateThreeRtts 0 0 20000).samples = stateThreeRtts.samples ∧
      (receive_step stateThreeRtts 0 0 20000).offsets = stateThreeRtts.offsets ∧
      (receive_step stateThreeRtts 0 0 20000).averageOffset =
        stateThreeRtts.averageOffset ∧
      (receive_step stateThreeRtts 0 0 20000).clockRate = stateThreeRtts.clockRate ∧
      (receive_step stateThreeRtts 0 0 20000).roundTripTimes =
        ring_buffer_push stateThreeRtts.roundTripTimes (20000 - 0) ∧
      (receive_step stateThreeRtts 0 0 20000).receivedSamples =
        stateThreeRtts.receivedSamples + 1) :=
  ⟨by decide, (claim_C3 stateThreeRtts 0 0 20000).2 (by decide)⟩

/-- Helper: reading any index of a replicated list yields the replicated
element. -/
theorem getD_replicate (n i : Nat) (x : α) : (List.replicate n x).getD i x = x := by
  by_cases h : i < n
  · rw [List.getD_eq_getElem _ _ (by simpa using h)]
    simp
  · rw [List.getD_eq_default _ _ (by simpa using not_lt.mp h)]

/-- Helper: every read from a ring whose storage is still all zeroes
(as calloc left it) returns 0, whatever index arithmetic produced. -/
theorem ring_buffer_get_zeroed (b : RingBuffer Int)
    (hb : b.buffer = List.replicate 10 0) (i : Nat) : ring_buffer_get b i = 0 := by
  have hdefault : (default : Int) = 0 := rfl
  unfold ring_buffer_get
  rw [hb, hdefault]
  exact getD_replicate _ _ _

/-- Claim C10: on a client whose RTT ring is empty (count 0 and the
storage still zeroed as calloc produced it), medianRoundTripTime returns
0 — it reads a zero slot of the scratch copy instead of failing — and the
public DRIFTsync_medianRoundTripTime returns 0.0. -/
theorem claim_C10 (sync : DRIFTsync)
    (hc : sync.roundTripTimes.count = 0)
    (hb : sync.roundTripTimes.buffer = List.replicate 10 0) :
    (medianRoundTripTime sync).2 = 0 ∧ DRIFTsync_medianRoundTripTime sync = 0 := by
  have hbuf :
      (qsortBuffer (ring_buffer_copy sync.roundTripTimes
        sync.sortedRoundTripTimes)).buffer = List.replicate 10 0 := by
    simp [qsortBuffer, ring_buffer_copy, hc, hb]
  have h1 : (medianRoundTripTime sync).2 = 0 := ring_buffer_get_zeroed _ hbuf _
  refine ⟨h1, ?_⟩
  simp [DRIFTsync_medianRoundTripTime, h1]

/-- Witness for claim C10 at the freshly created client. -/
theorem claim_C10_witness :
    (DRIFTsync_create 1 5000000 true).roundTripTimes.count = 0 ∧
    (medianRoundTripTime (DRIFTsync_create 1 5000000 true)).2 = 0 ∧
    DRIFTsync_medianRoundTripTime (DRIFTsync_create 1 5000000 true) = 0 :=
  ⟨rfl, (claim_C10 (DRIFTsync_create 1 5000000 true) rfl rfl).1,
    (claim_C10 (DRIFTsync_create 1 5000000 true) rfl rfl).2⟩

/-- Helper: the C idiom `x < 0 ? -x : x` computes the absolute value of a
`double`, modelled as a rational. -/
theorem rat_branch_abs (d : ℚ) : (if d < 0 then -d else d) = |d| := by
  split_ifs with h
  · exact (abs_of_neg h).symm
  · exact (abs_of_nonneg (not_lt.mp h)).symm

/-- Claim C6: for every client state and every pair of caller arguments,
DRIFTsync_suggestPlaybackRate returns a value in [1/2, 2]; it returns
exactly 1 whenever the unscaled position delta has magnitude below 5000
microseconds, and otherwise returns 1 + delta / 1000000 clamped to
[1/2, 2]. -/
theorem claim_C6 (sync : DRIFTsync) (now : Int)
    (globalStartTime playbackPosition : ℚ) :
    ((1 : ℚ)/2 ≤ DRIFTsync_suggestPlaybackRate sync now globalStartTime playbackPosition ∧
      DRIFTsync_suggestPlaybackRate sync now globalStartTime playbackPosition ≤ 2) ∧
    (|((globalTime sync now : Int) : ℚ) - globalStartTime / sync.scale -
        playbackPosition / sync.scale| < 5000 →
      DRIFTsync_suggestPlaybackRate sync now globalStartTime playbackPosition = 1) ∧
    (5000 ≤ |((globalTime sync now : Int) : ℚ) - globalStartTime / sync.scale -
        playbackPosition / sync.scale| →
      DRIFTsync_suggestPlaybackRate sync now globalStartTime playbackPosition =
        max (1/2) (min 2 (1 + (((globalTime sync now : Int) : ℚ) -
          globalStartTime / sync.scale - playbackPosition / sync.scale) / 1000000))) := by
  have hdd : (((globalTime sync now : Int) : ℚ) - globalStartTime / sync.scale -
      playbackPosition / sync.scale) / 1000 / 1000 =
      (((globalTime sync now : Int) : ℚ) - globalStartTime / sync.scale -
      playbackPosition / sync.scale) / 1000000 := by
    rw [div_div]
    norm_num
  unfold DRIFTsync_suggestPlaybackRate
  simp only [rat_branch_abs, hdd]
  split_ifs with h1 h2 h3
  · exact ⟨⟨by norm_num, by norm_num⟩, fun _ => rfl, fun hx => absurd hx (by linarith)⟩
  · refine ⟨⟨by norm_num, le_refl _⟩, fun hx => absurd hx h1, fun _ => ?_⟩
    rw [min_eq_left (le_of_lt h2), max_eq_right (by norm_num : (1:ℚ)/2 ≤ 2)]
  · refine ⟨⟨by norm_num, by norm_num⟩, fun hx => absurd hx h1, fun _ => ?_⟩
    have hle : 1 + (((globalTime sync now : Int) : ℚ) - globalStartTime / sync.scale -
        playbackPosition / sync.scale) / 1000000 ≤ 1/2 := by
      have h05 : (0.5 : ℚ) = 1/2 := by norm_num
      linarith [h05 ▸ h3]
    rw [min_eq_right (by linarith), max_eq_left hle]
    norm_num
  · have hge : (0.5 : ℚ) ≤ 1 + (((globalTime sync now : Int) : ℚ) -
        globalStartTime / sync.scale - playbackPosition / sync.scale) / 1000000 :=
      not_lt.mp h3
    have hle2 : 1 + (((globalTime sync now : Int) : ℚ) - globalStartTime / sync.scale -
        playbackPosition / sync.scale) / 1000000 ≤ 2 := not_lt.mp h2
    refine ⟨⟨by linarith [hge], hle2⟩, fun hx => absurd hx h1, fun _ => ?_⟩
    rw [min_eq_right hle2, max_eq_right (by linarith [hge])]

/-- Witness for claim C6: on the fresh client with scale 1 and all
arguments 0 the delta is 0, inside the dead band, and the suggested rate
is exactly 1. -/
theorem claim_C6_witness :
    |((globalTime (DRIFTsync_create 1 5000000 true) 0 : Int) : ℚ) -
        0 / (DRIFTsync_create 1 5000000 true).scale -
        0 / (DRIFTsync_create 1 5000000 true).scale| < 5000 ∧
    DRIFTsync_suggestPlaybackRate (DRIFTsync_create 1 5000000 true) 0 0 0 = 1 := by
  have hg : globalTime (DRIFTsync_create 1 5000000 true) 0 = 0 := rfl
  have hyp : |((globalTime (DRIFTsync_create 1 5000000 true) 0 : Int) : ℚ) -
      0 / (DRIFTsync_create 1 5000000 true).scale -
      0 / (DRIFTsync_create 1 5000000 true).scale| < 5000 := by
    rw [hg]
    norm_num
  exact ⟨hyp, (claim_C6 (DRIFTsync_create 1 5000000 true) 0 0 0).2.1 hyp⟩

/-- Helper: reading the index just written by set. -/
theorem getD_set_self (l : List α) (i : Nat) (a d : α) (hi : i < l.length) :
    (l.set i a).getD i d = a := by
  rw [List.getD_eq_getElem _ _ (by simpa using hi)]
  exact List.getElem_set_self _

/-- Helper: reading an index other than the one written by set. -/
theorem getD_set_ne (l : List α) (i j : Nat) (a d : α) (h : i ≠ j)
    (hj : j < l.length) : (l.set i a).getD j d = l.getD j d := by
  rw [List.getD_eq_getElem _ _ (by simpa using hj), List.getD_eq_getElem _ _ hj]
  exact List.getElem_set_ne h _

/-- Characterisation of a capacity-10 ring after pushing the list `xs`
into the fresh ring: sizes, count `min |xs| 10`, position `(9 + |xs|) % 10`,
and every physical slot `j` that has been written holds the element of the
last push targeting that slot — an `m < |xs|` with `m % 10 = j` from the
final window of at most 10 pushes. -/
theorem pushList_char (α : Type) [Inhabited α] (xs : List α) :
    (pushList (ring_buffer_init α 10) xs).size = 10 ∧
    (pushList (ring_buffer_init α 10) xs).buffer.length = 10 ∧
    (pushList (ring_buffer_init α 10) xs).count = min xs.length 10 ∧
    (pushList (ring_buffer_init α 10) xs).position = (9 + xs.length) % 10 ∧
    ∀ j : Nat, j < 10 → (10 ≤ xs.length ∨ j < xs.length) →
      ∃ m : Nat, m < xs.length ∧ m % 10 = j ∧ xs.length - m ≤ 10 ∧
        (pushList (ring_buffer_init α 10) xs).buffer.getD j default =
          xs.getD m default := by
  induction xs using List.reverseRecOn with
  | nil =>
    refine ⟨rfl, by simp [pushList, ring_buffer_init], rfl, rfl, ?_⟩
    intro j hj hcond
    simp at hcond
  | append_singleton xs x ih =>
    obtain ⟨hs, hl, hc, hp, hslot⟩ := ih
    have hstep : pushList (ring_buffer_init α 10) (xs ++ [x]) =
        ring_buffer_push (pushList (ring_buffer_init α 10) xs) x := by
      simp [pushList, List.foldl_append]
    set b := pushList (ring_buffer_init α 10) xs with hb
    set k := xs.length with hk
    have hnewpos : (ring_buffer_push b x).position = k % 10 := by
      show (b.position + 1) % b.size = k % 10
      rw [hp, hs]
      omega
    have hlen2 : (xs ++ [x]).length = k + 1 := by simp
    refine ⟨by rw [hstep]; exact hs, ?_, ?_, ?_, ?_⟩
    · rw [hstep]
      show (b.buffer.set ((b.position + 1) % b.size) x).length = 10
      rw [List.length_set]
      exact hl
    · rw [hstep, hlen2]
      show (if b.count < b.size then b.count + 1 else b.count) = min (k + 1) 10
      rw [hc, hs]
      split_ifs with h <;> omega
    · rw [hstep, hlen2, hnewpos]
      omega
    · intro j hj hcond
      rw [hlen2] at hcond
      by_cases hjpos : j = k % 10
      · refine ⟨k, by omega, by omega, by omega, ?_⟩
        rw [hstep]
        show (b.buffer.set ((b.position + 1) % b.size) x).getD j default =
          (xs ++ [x]).getD k default
        have hppos : (b.position + 1) % b.size = k % 10 := by
          rw [hp, hs]; omega
        rw [hppos, ← hjpos, getD_set_self _ _ _ _ (by rw [hl]; exact hj)]
        rw [List.getD_eq_getElem _ _ (by simp), List.getElem_append_right (by omega)]
        simp
      · have hcond2 : 10 ≤ k ∨ j < k := by
          rcases hcond with h | h
          · rcases Nat.lt_or_ge k 10 with hk10 | hk10
            · right
              omega
            · left
              exact hk10
          · right
            omega
        obtain ⟨m, hm1, hm2, hm3, hm4⟩ := hslot j hj hcond2
        refine ⟨m, by omega, hm2, by omega, ?_⟩
        rw [hstep]
        show (b.buffer.set ((b.position + 1) % b.size) x).getD j default =
          (xs ++ [x]).getD m default
        have hppos : (b.position + 1) % b.size = k % 10 := by
          rw [hp, hs]; omega
        rw [hppos, getD_set_ne _ _ _ _ _ (by omega) (by rw [hl]; exact hj), hm4]
        exact (List.getD_append _ _ _ _ hm1).symm

/-- Claim C4: for every samples-ring state reached by pushing at least two
samples whose local and remote stamps are strictly increasing in insertion
order, the denominator `last.local - first.local` of the clock-rate
division is strictly positive (so the division-by-zero case is
unreachable) and the recomputed clock rate is strictly positive (and, as
an exact rational, finite).  This holds even after the ring has wrapped,
when ring_buffer_get 0 no longer returns the oldest retained sample: it
still returns a strictly older one than index count - 1. -/
theorem claim_C4 (xs : List Sample) (hlen : 2 ≤ xs.length)
    (hmono : List.Pairwise (fun a b => a.localT < b.localT ∧ a.remote < b.remote) xs) :
    0 < (ring_buffer_get (samplesRingAfter xs)
          ((samplesRingAfter xs).count - 1)).localT -
        (ring_buffer_get (samplesRingAfter xs) 0).localT ∧
    0 < sampleClockRate (samplesRingAfter xs) := by
  obtain ⟨hs, hl, hc, hp, hslot⟩ := pushList_char Sample xs
  have hbr : samplesRingAfter xs = pushList (ring_buffer_init Sample 10) xs := rfl
  rw [hbr]
  set b := pushList (ring_buffer_init Sample 10) xs with hb
  set k := xs.length with hk
  have hU : U64 = 18446744073709551616 := rfl
  have hidx_last : ring_index b (b.count - 1) = b.position := by
    unfold ring_index
    rw [hc, hp, hs, hU]
    omega
  have hidx0 : ring_index b 0 < 10 ∧ ring_index b 0 ≠ b.position ∧
      (10 ≤ k ∨ ring_index b 0 < k) := by
    unfold ring_index
    rw [hc, hp, hs, hU]
    rcases Nat.lt_or_ge k 10 with hk10 | hk10
    · have h1 : min k 10 = k := by omega
      have h2 : (9 + k) % 10 = k - 1 := by omega
      rw [h1, h2]
      omega
    · have h1 : min k 10 = 10 := by omega
      rw [h1]
      have hple : (9 + k) % 10 < 10 := Nat.mod_lt _ (by norm_num)
      refine ⟨?_, ?_, Or.inl hk10⟩ <;> omega
  obtain ⟨hj0lt, hj0ne, hj0cond⟩ := hidx0
  obtain ⟨m, hm1, hm2, hm3, hm4⟩ :=
    hslot b.position (by rw [hp]; omega) (by rw [hp]; omega)
  have hmlast : m = k - 1 := by
    rw [hp] at hm2
    omega
  have hlastval : ring_buffer_get b (b.count - 1) = xs.getD (k - 1) default := by
    unfold ring_buffer_get
    rw [hidx_last]
    rw [hmlast] at hm4
    exact hm4
  obtain ⟨m0, h01, h02, h03, h04⟩ := hslot (ring_index b 0) hj0lt hj0cond
  have hm0lt : m0 < k - 1 := by
    rw [hp] at hj0ne
    omega
  have h0val : ring_buffer_get b 0 = xs.getD m0 default := h04
  have hb1 : m0 < xs.length := hk ▸ Nat.lt_of_lt_of_le hm0lt (Nat.sub_le k 1)
  have hb2 : k - 1 < xs.length :=
    lt_of_lt_of_eq (Nat.sub_lt (by omega) Nat.one_pos) hk
  have hrel := List.pairwise_iff_getElem.mp hmono m0 (k - 1) hb1 hb2 hm0lt
  have hlt1 : (xs.getD m0 default).localT < (xs.getD (k - 1) default).localT := by
    rw [List.getD_eq_getElem _ _ hb1, List.getD_eq_getElem _ _ hb2]
    exact hrel.1
  have hlt2 : (xs.getD m0 default).remote < (xs.getD (k - 1) default).remote := by
    rw [List.getD_eq_getElem _ _ hb1, List.getD_eq_getElem _ _ hb2]
    exact hrel.2
  constructor
  · rw [hlastval, h0val]
    omega
  · unfold sampleClockRate
    rw [hlastval, h0val]
    apply div_pos
    · have h2 : (0 : Int) < (xs.getD (k - 1) default).remote -
          (xs.getD m0 default).remote := by omega
      exact_mod_cast h2
    · have h1 : (0 : Int) < (xs.getD (k - 1) default).localT -
          (xs.getD m0 default).localT := by omega
      exact_mod_cast h1

/-- Witness for claim C4 at the two-sample history (0, 0), (10, 20). -/
theorem claim_C4_witness :
    2 ≤ ([Sample.mk 0 0, Sample.mk 10 20] : List Sample).length ∧
    List.Pairwise (fun a b => a.localT < b.localT ∧ a.remote < b.remote)
      [Sample.mk 0 0, Sample.mk 10 20] ∧
    (0 < (ring_buffer_get (samplesRingAfter [Sample.mk 0 0, Sample.mk 10 20])
          ((samplesRingAfter [Sample.mk 0 0, Sample.mk 10 20]).count - 1)).localT -
        (ring_buffer_get (samplesRingAfter [Sample.mk 0 0, Sample.mk 10 20]) 0).localT ∧
      0 < sampleClockRate (samplesRingAfter [Sample.mk 0 0, Sample.mk 10 20])) :=
  ⟨by decide, by decide, claim_C4 _ (by decide) (by decide)⟩
